import Mathlib

/-!
# Validate-light: shallow embedding and verification

This file embeds the core of the validate-light form-validation library
(`src/index.js`, v0.1.0; the prototype version in v1.0.0 and the compiled
v0.1.1 build agree except where noted) and proves or refutes the frozen
claims about its specification.

Modelling conventions:
* DOM strings are Lean `String`s; a JS value that may be `null`
  (e.g. `getAttribute` results) is `Option String`, with `none` for `null`.
* The two regular-expression literals (email, tel) are abstracted as test
  functions `String → Bool` (the claims never depend on the regex bodies;
  `r.test` is only ever called on a non-blank trimmed value).
* Each field's enclosing form group (`closest(field, formBlockSelector)`)
  anchors that field's error block; per-field decoration state (`Deco`)
  records the field's class list, its group's error block, and the events
  dispatched on the field.  The `setTimeout` that removes `is-hidden` from
  a freshly created error block is purely cosmetic (spec §5) and the block
  is modelled in its post-timeout, visible state.
* Thrown `Error`s are modelled as error strings threaded explicitly;
  DOM mutations that happened before a throw persist, so state is returned
  alongside the optional error.
-/

namespace ValidateLight

/-- `CheckResult`: the record returned by every field check
(`{ hasError, isEmpty, value }` in the source). -/
structure CheckResult where
  hasError : Bool
  isEmpty : Bool
  value : Option String
deriving Repr, DecidableEq

/-- JS `String.prototype.trim`: strips whitespace from both ends.
(Restricted to ASCII whitespace, which is all the claims exercise;
written over the character list so that it is kernel-computable.) -/
def jsTrim (s : String) : String :=
  ⟨((s.data.dropWhile Char.isWhitespace).reverse.dropWhile Char.isWhitespace).reverse⟩

/-- Helper for `jsSplitComma`. -/
def splitCommaAux : List Char → List Char → List String
  | [], acc => [⟨acc.reverse⟩]
  | c :: rest, acc =>
      if c == ',' then (⟨acc.reverse⟩ : String) :: splitCommaAux rest []
      else splitCommaAux rest (c :: acc)

/-- JS `String.prototype.split(',')`: `"".split(',')` is `[""]`,
`"a,b"` is `["a","b"]`.  (Kernel-computable.) -/
def jsSplitComma (s : String) : List String := splitCommaAux s.data []

/-- `fieldChecks.empty` (src/index.js lines 52-60):
trims the value; `isEmpty` iff the trimmed value is falsy (empty);
`value` is the trimmed string or `null`. -/
def empty (value : String) : CheckResult :=
  let v := jsTrim value
  { hasError := false
    isEmpty := v == ""
    value := if v == "" then none else some v }

/-- `fieldChecks.regExp` (src/index.js lines 62-77): empty value
short-circuits to `isEmpty := true, hasError := false`; otherwise the
regex test on the trimmed value decides `hasError`.  The regex is
abstracted as its `test` function. -/
def regExp (value : String) (r : String → Bool) : CheckResult :=
  let field := empty value
  match field.value with
  | none => { field with isEmpty := true, hasError := false }
  | some v => if !(r v) then { field with hasError := true } else field

/-- The environment carrying the `test` functions of the two built-in
regex literals (src/index.js lines 79-81). -/
structure Env where
  emailTest : String → Bool
  telTest : String → Bool

/-- `fieldChecks.email` (src/index.js line 79). -/
def email (env : Env) (value : String) : CheckResult :=
  regExp value env.emailTest

/-- `fieldChecks.tel` (src/index.js line 81). -/
def tel (env : Env) (value : String) : CheckResult :=
  regExp value env.telTest

/-- The inputs of one form field consumed by `validate`
(src/index.js lines 117-145): `field.type`, `hasAttribute('required')`,
`field.value` (raw), `field.checked`, the `data-validate-<k>` attributes,
and — abstracting the form-level query
`form.querySelector('input[name=...]:checked')` — whether some radio
button of the field's name group is checked. -/
structure FieldSpec where
  type : String
  required : Bool
  value : String
  checked : Bool
  dataValidate : List (String × String)
  radioGroupChecked : Bool

/-- Looks up an attribute in an attribute list (`getAttribute`:
`none` models `null`). -/
def attrLookup (attrs : List (String × String)) (k : String) : Option String :=
  (attrs.find? (fun p => p.1 == k)).map Prod.snd

/-- A registered custom checker as stored by `setFieldCheck`
(src/index.js lines 200-207): either a RegExp (wrapped into
`fieldChecks.regExp`) or a predicate function (wrapped so that
`hasError := !check(value, field, config)` on top of
`fieldChecks.empty`). -/
inductive Checker where
  | regex (test : String → Bool)
  | func (pred : String → FieldSpec → List String → Bool)

/-- Runs a stored custom checker: the bodies of the two wrapper closures
installed by `setFieldCheck`. -/
def runChecker : Checker → String → FieldSpec → List String → CheckResult
  | .regex t, value, _, _ => regExp value t
  | .func p, value, field, config =>
      let result := empty value
      { result with hasError := !(p value field config) }

/-- The custom-check registry `form.customChecks`: an insertion-ordered
association list (JS `for..in` over non-integer keys iterates in
insertion order). -/
abbrev Registry := List (String × Checker)

/-- Assignment `form.customChecks[name] = ...`: overwrites in place if the
key exists (JS objects keep the original insertion position), else
appends. -/
def regSet (reg : Registry) (name : String) (c : Checker) : Registry :=
  if (List.find? (fun p => p.1 == name) reg).isSome then
    List.map (fun p => if p.1 == name then (name, c) else p) reg
  else
    reg ++ [(name, c)]

/-- The `name` argument of `setFieldCheck` as a JS value: a string, or
anything that is not a string. -/
inductive NameArg where
  | str (s : String)
  | nonString

/-- The `check` argument of `setFieldCheck` as a JS value: `undefined`, a
RegExp, a Function, or anything else. -/
inductive CheckerArg where
  | undef
  | regex (test : String → Bool)
  | func (pred : String → FieldSpec → List String → Bool)
  | other

/-- `setFieldCheck` (src/index.js lines 195-211), with the source's
control flow: first `typeof name !== 'string' || typeof check ===
'undefined'` throws; then RegExp and Function checkers are wrapped and
stored; anything else throws. -/
def setFieldCheck : NameArg → CheckerArg → Registry → Except String Registry
  | .nonString, _, _ =>
      .error "ValidateLight - You must define a string name and a method for your new validation rule"
  | .str _, .undef, _ =>
      .error "ValidateLight - You must define a string name and a method for your new validation rule"
  | .str s, .regex t, reg => .ok (regSet reg s (.regex t))
  | .str s, .func p, reg => .ok (regSet reg s (.func p))
  | .str _, .other, _ =>
      .error "ValidateLight - Your new validation method is invalid"

/-- `form.messages` (src/index.js lines 215-219): a SINGLE JS object
mapping message keys to string-or-null values, modelled as an
insertion-ordered association list over one shared key namespace.  The
builder initializes the keys `required`, `email`, `tel` from the form's
attributes; the custom loop in `validate` assigns `form.messages[k]` for
every registered rule name `k` — in particular a custom rule registered
under one of the built-in names overwrites that same slot. -/
abbrev Messages := List (String × Option String)

/-- Property read `form.messages[k]`: outer `none` models the key being
absent (JS `undefined`); `some v` is the stored string-or-null value. -/
def msgGet (m : Messages) (k : String) : Option (Option String) :=
  (m.find? (fun p => p.1 == k)).map Prod.snd

/-- Property write `form.messages[k] = v`: overwrites in place if the key
exists (JS objects keep the original insertion position), else appends. -/
def msgSet (m : Messages) (k : String) (v : Option String) : Messages :=
  if (List.find? (fun p => p.1 == k) m).isSome then
    m.map (fun p => if p.1 == k then (k, v) else p)
  else
    m ++ [(k, v)]

/-- The messages object the builder creates (src/index.js lines 215-219):
the three built-in keys, each holding a `getAttribute` result. -/
def initMessages (required email tel : Option String) : Messages :=
  [("required", required), ("email", email), ("tel", tel)]

/-- JS truthiness of a string-or-null value: `null` and `""` are falsy. -/
def truthyStr : Option String → Bool
  | none => false
  | some s => !(s == "")

/-- JS truthiness of a property value: `undefined`, `null` and `""` are
falsy. -/
def truthyProp : Option (Option String) → Bool
  | none => false
  | some v => truthyStr v

/-- One entry of `validationConfig` (src/index.js lines 118-145): the
relevance condition, the precomputed failure flag, and the message — a
property value read from `form.messages` (a string, `null`, or
`undefined` when the key is absent). -/
structure ConfigEntry where
  checkCondition : Bool
  validationType : Bool
  msg : Option (Option String)
deriving Repr, DecidableEq

/-- The five built-in `validationConfig` entries, in source order
(src/index.js lines 118-145): required (non-checkbox), email, tel,
required-checkbox, required-radio. -/
def builtinConfig (env : Env) (msgs : Messages) (field : FieldSpec) :
    List ConfigEntry :=
  [ { checkCondition := (field.type != "checkbox") && field.required
      validationType := (empty field.value).isEmpty
      msg := msgGet msgs "required" },
    { checkCondition := field.type == "email"
      validationType := (email env field.value).hasError
      msg := msgGet msgs "email" },
    { checkCondition := field.type == "tel"
      validationType := (tel env field.value).hasError
      msg := msgGet msgs "tel" },
    { checkCondition := (field.type == "checkbox") && field.required
      validationType := !field.checked
      msg := msgGet msgs "required" },
    { checkCondition := (field.type == "radio") && field.required
      validationType := !field.radioGroupChecked
      msg := msgGet msgs "required" } ]

/-- The failure flag of a custom candidate (src/index.js line 158):
`!dataConfig ? false : check(...).isEmpty ? false : check(...).hasError`. -/
def customValidationType (ck : Checker) (field : FieldSpec)
    (dataConfig : Option (List String)) : Bool :=
  match dataConfig with
  | none => false
  | some cfg =>
      let res := runChecker ck field.value field cfg
      if res.isEmpty then false else res.hasError

/-- The custom-check loop of `validate` (src/index.js lines 147-163) for
one field: for each registered rule `k`, in registry order, reads the
field's `data-validate-<k>` attribute, assigns
`form.messages[k] = form.getAttribute('data-msg-<k>')`, throws if that
value is falsy, and otherwise appends a candidate entry.  Returns the
mutated messages together with either the error or the entries. -/
def buildCustomEntries (formAttr : String → Option String) (field : FieldSpec) :
    Registry → Messages → Messages × Except String (List ConfigEntry)
  | [], msgs => (msgs, .ok [])
  | (k, ck) :: rest, msgs =>
      let dataName := attrLookup field.dataValidate k
      let dataConfig := dataName.map (fun s => jsSplitComma s)
      let msgs1 := msgSet msgs k (formAttr ("data-msg-" ++ k))
      if !(truthyProp (msgGet msgs1 k)) then
        (msgs1, .error ("ValidateLight - You must define an error message for your new \"" ++ k ++ "\" validation rule. Set it on the form tag adding the data-msg-" ++ k ++ " attribute"))
      else
        match buildCustomEntries formAttr field rest msgs1 with
        | (msgs2, .ok entries) =>
            (msgs2, .ok ({ checkCondition := dataConfig.isSome
                           validationType := customValidationType ck field dataConfig
                           msg := msgGet msgs1 k } :: entries))
        | (msgs2, .error e) => (msgs2, .error e)

/-- The plugin parameters consumed by the per-field walk
(`builderParams.validClass` / `builderParams.invalidClass`). -/
structure Params where
  validClass : String
  invalidClass : String

/-- `defaultParams` (src/index.js lines 36-43), restricted to the keys
the core reads. -/
def defaultParams : Params :=
  { validClass := "is-valid", invalidClass := "is-invalid" }

/-- The per-field UI decoration state: the field's class list, the error
block in its form group (`some msg` when a block with that rendered
message exists), whether that block carries `is-hidden`, and the events
dispatched on the field. -/
structure Deco where
  classes : List String
  errorBlock : Option String
  errorHidden : Bool
  events : List String
deriving Repr, DecidableEq

/-- `classList.add`: no duplicates. -/
def classAdd (cs : List String) (c : String) : List String :=
  if c ∈ cs then cs else cs ++ [c]

/-- `classList.remove`. -/
def classRemove (cs : List String) (c : String) : List String :=
  cs.filter (fun x => x != c)

/-- JS string interpolation of a property value (`undefined` and `null`
render as the corresponding words). -/
def jsStr : Option (Option String) → String
  | none => "undefined"
  | some none => "null"
  | some (some s) => s

/-- `showError` (src/index.js lines 86-103): the form group ends up with
a visible error block rendering the message (the `is-hidden`/`setTimeout`
dance on a freshly created block is collapsed to its final state). -/
def showError (deco : Deco) (msg : Option (Option String)) : Deco :=
  { deco with errorBlock := some (jsStr msg), errorHidden := false }

/-- `hideError` (src/index.js lines 105-110): adds `is-hidden` to the
error block if one exists; does nothing otherwise. -/
def hideError (deco : Deco) : Deco :=
  if deco.errorBlock.isSome then { deco with errorHidden := true } else deco

/-- The failure branch of the `validationConfig.every` walk
(src/index.js lines 168-173): remove `validClass`, add `invalidClass`,
show the error, dispatch `validate-light:error`. -/
def applyFail (ps : Params) (deco : Deco) (msg : Option (Option String)) : Deco :=
  let d1 := { deco with classes := classAdd (classRemove deco.classes ps.validClass) ps.invalidClass }
  let d2 := showError d1 msg
  { d2 with events := d2.events ++ ["validate-light:error"] }

/-- The success branch of the walk (src/index.js lines 175-181): remove
the (hard-coded) `is-invalid` class, add `is-valid` iff the raw value is
not the empty string, hide the error block. -/
def applyPass (deco : Deco) (rawValue : String) : Deco :=
  let cs1 := classRemove deco.classes "is-invalid"
  let cs2 := if rawValue != "" then classAdd cs1 "is-valid" else classRemove cs1 "is-valid"
  hideError { deco with classes := cs2 }

/-- `validationConfig.every(...)` (src/index.js lines 165-185): walks the
candidates in order; the first entry whose `checkCondition` and
`validationType` both hold applies the failure decoration and stops the
walk (field fails); a relevant passing entry applies the success
decoration and continues; an irrelevant entry is skipped. -/
def walkConfig (ps : Params) (field : FieldSpec) :
    List ConfigEntry → Deco → Bool × Deco
  | [], deco => (true, deco)
  | e :: rest, deco =>
      if e.checkCondition then
        if e.validationType then (false, applyFail ps deco e.msg)
        else walkConfig ps field rest (applyPass deco field.value)
      else walkConfig ps field rest deco

/-- A candidate entry reports a failure iff it is relevant
(`checkCondition`) and its failure flag (`validationType`) is set: the
test of the first-match walk. -/
def cFail (e : ConfigEntry) : Bool := e.checkCondition && e.validationType

/-- The shape of the candidate entry `buildCustomEntries` pushes for a
registered rule `(k, ck)` (src/index.js lines 156-160). -/
def canonEntry (formAttr : String → Option String) (field : FieldSpec)
    (k : String) (ck : Checker) : ConfigEntry :=
  { checkCondition := ((attrLookup field.dataValidate k).map (fun s => jsSplitComma s)).isSome
    validationType := customValidationType ck field
      ((attrLookup field.dataValidate k).map (fun s => jsSplitComma s))
    msg := some (formAttr ("data-msg-" ++ k)) }

/-- The components of a candidate entry that determine the control flow of
the walk (everything except the displayed message). -/
def condvt (e : ConfigEntry) : Bool × Bool := (e.checkCondition, e.validationType)

/-- Whether an `Except` result is a success. -/
def isOkE {ε α : Type} : Except ε α → Bool
  | .ok _ => true
  | .error _ => false

/-- The outcome of evaluating one field inside `validate`: the (possibly
mutated) messages, the thrown error if any, the callback's boolean result,
and the field's decoration afterwards. -/
structure FieldOut where
  msgs : Messages
  error : Option String
  passed : Bool
  deco : Deco

/-- The body of the `every` callback of `validate` for one field
(src/index.js lines 117-187): builds the built-in candidates, runs the
custom-check loop (which may throw — in that case the walk never runs and
the field's decoration is untouched), then walks the full candidate
list. -/
def evaluateField (env : Env) (ps : Params) (formAttr : String → Option String)
    (reg : Registry) (field : FieldSpec) (msgs : Messages) (deco : Deco) :
    FieldOut :=
  let builtins := builtinConfig env msgs field
  match buildCustomEntries formAttr field reg msgs with
  | (msgs1, .error e) => { msgs := msgs1, error := some e, passed := false, deco := deco }
  | (msgs1, .ok customs) =>
      let r := walkConfig ps field (builtins ++ customs) deco
      { msgs := msgs1, error := none, passed := r.1, deco := r.2 }

/-- The outcome of one `validate()` call: final messages and registry,
the propagated exception if any, the `every` result, whether
`form.submit()` ran, and the decoration of every field (in DOM order). -/
structure FormOut where
  msgs : Messages
  reg : Registry
  error : Option String
  result : Bool
  submitted : Bool
  decos : List Deco

/-- The `[].every.call(form.fields, ...)` loop of `validate`
(src/index.js line 117): fields in DOM order; a thrown error propagates
(later fields untouched); a failing field stops the iteration (later
fields untouched). -/
def validateFields (env : Env) (ps : Params) (formAttr : String → Option String)
    (reg : Registry) :
    List (FieldSpec × Deco) → Messages →
    Messages × Option String × Bool × List Deco
  | [], msgs => (msgs, none, true, [])
  | (f, d) :: rest, msgs =>
      let out := evaluateField env ps formAttr reg f msgs d
      match out.error with
      | some e => (out.msgs, some e, false, out.deco :: rest.map Prod.snd)
      | none =>
          if out.passed then
            let r := validateFields env ps formAttr reg rest out.msgs
            (r.1, r.2.1, r.2.2.1, out.deco :: r.2.2.2)
          else
            (out.msgs, none, false, out.deco :: rest.map Prod.snd)

/-- `validate` (src/index.js lines 114-193) over a given field list:
runs the per-field loop and calls `form.submit()` iff it completed with
every field passing.  `form.customChecks` is never written by `validate`,
so the registry is returned unchanged. -/
def validate (env : Env) (ps : Params) (formAttr : String → Option String)
    (reg : Registry) (msgs : Messages) (fields : List (FieldSpec × Deco)) :
    FormOut :=
  let r := validateFields env ps formAttr reg fields msgs
  { msgs := r.1
    reg := reg
    error := r.2.1
    result := r.2.2.1
    submitted := r.2.1.isNone && r.2.2.1
    decos := r.2.2.2 }

/-- v0.1.0 `validate` (src/index.js line 115): the field list is
re-queried from the DOM at the start of every call
(`form.fields = form.querySelectorAll('input, textarea, select')`), so
the fields captured at builder time are ignored and the current DOM
fields are used. -/
def validateV010 (env : Env) (ps : Params) (formAttr : String → Option String)
    (reg : Registry) (msgs : Messages)
    (_fieldsAtInit fieldsNow : List (FieldSpec × Deco)) : FormOut :=
  validate env ps formAttr reg msgs fieldsNow

/-- v0.1.1 `validate` (build/index.js, second bundle: `var fields =
form.querySelectorAll('input, textarea, select')` runs once inside
`builder`, and `validate` closes over that list), so the fields captured
at builder time are used and the current DOM fields are ignored. -/
def validateV011 (env : Env) (ps : Params) (formAttr : String → Option String)
    (reg : Registry) (msgs : Messages)
    (fieldsAtInit _fieldsNow : List (FieldSpec × Deco)) : FormOut :=
  validate env ps formAttr reg msgs fieldsAtInit

/-! ## Concrete example data used by witnesses and counterexamples -/

/-- An environment with trivial regex tests (the claims below never
depend on the regex bodies). -/
def exEnv : Env := { emailTest := fun _ => true, telTest := fun _ => true }

/-- Form messages with all three built-in messages present. -/
def exMsgs : Messages :=
  initMessages (some "Required!") (some "Bad email") (some "Bad tel")

/-- A form carrying a `data-msg-foo` attribute. -/
def exAttrFoo : String → Option String :=
  fun s => if s == "data-msg-foo" then some "Bad foo" else none

/-- A form with no `data-msg-*` attributes at all. -/
def exAttrNone : String → Option String := fun _ => none

/-- A registry holding one function-based custom rule `foo` whose
predicate always reports invalid. -/
def exRegFoo : Registry := [("foo", .func (fun _ _ _ => false))]

/-- A registry holding one custom rule registered under the built-in name
`required` (setFieldCheck accepts any string name). -/
def exRegReq : Registry := [("required", .func (fun _ _ _ => true))]

/-- A form carrying a `data-msg-required` attribute whose value differs
from the initial `required` message slot. -/
def exAttrReq : String → Option String :=
  fun s => if s == "data-msg-required" then some "Overwritten" else none

/-- Pristine decoration: no classes, no error block, no events. -/
def exDeco : Deco :=
  { classes := [], errorBlock := none, errorHidden := false, events := [] }

/-- The spec's scenario field: `type=email required data-validate-foo="x"`
with value `""`. -/
def exFieldC1 : FieldSpec :=
  { type := "email", required := true, value := "", checked := false,
    dataValidate := [("foo", "x")], radioGroupChecked := false }

/-- A plain optional text input with blank value and no `data-validate-*`
attribute. -/
def exPlainField : FieldSpec :=
  { type := "text", required := false, value := "", checked := false,
    dataValidate := [], radioGroupChecked := false }

/-- A plain optional text input with a non-empty value. -/
def exHelloField : FieldSpec :=
  { type := "text", required := false, value := "hello", checked := false,
    dataValidate := [], radioGroupChecked := false }

/-- A required text input with blank value (always fails `required`). -/
def exReqField : FieldSpec :=
  { type := "text", required := true, value := "", checked := false,
    dataValidate := [], radioGroupChecked := false }

/-- An optional email input with blank value (passes, with the email rule
applicable). -/
def exBlankEmailField : FieldSpec :=
  { type := "email", required := false, value := "", checked := false,
    dataValidate := [], radioGroupChecked := false }

/-- An optional email input with whitespace-only value that also activates
the custom rule `foo` (blank after trimming, so everything must pass). -/
def exBlankEmailFoo : FieldSpec :=
  { type := "email", required := false, value := " ", checked := false,
    dataValidate := [("foo", "x")], radioGroupChecked := false }

/-! ## Basic check lemmas -/

theorem empty_hasError (v : String) : (empty v).hasError = false := rfl

theorem empty_isEmpty (v : String) : (empty v).isEmpty = (jsTrim v == "") := rfl

theorem regExp_isEmpty_of_blank (v : String) (r : String → Bool)
    (h : jsTrim v = "") : (regExp v r).isEmpty = true := by
  simp [regExp, empty, h]

theorem regExp_hasError_of_isEmpty (v : String) (r : String → Bool)
    (h : (regExp v r).isEmpty = true) : (regExp v r).hasError = false := by
  by_cases hb : jsTrim v = ""
  · simp [regExp, empty, hb]
  · simp [regExp, empty, hb] at h ⊢
    split <;> simp_all [empty]

theorem runChecker_isEmpty (ck : Checker) (v : String) (fld : FieldSpec)
    (cfg : List String) (h : jsTrim v = "") :
    (runChecker ck v fld cfg).isEmpty = true := by
  cases ck with
  | regex t => exact regExp_isEmpty_of_blank v t h
  | func p => simp [runChecker, empty, h]

theorem customValidationType_of_isEmpty (ck : Checker) (fld : FieldSpec)
    (cfg : List String)
    (h : (runChecker ck fld.value fld cfg).isEmpty = true) :
    customValidationType ck fld (some cfg) = false := by
  simp [customValidationType, h]

/-- C3 — corrected.  The invariant `isEmpty → ¬hasError` holds for the
built-in checks (`empty`, `regExp`, `email`, `tel`) and for RegExp-based
custom checkers; a function-based custom checker may violate it (see the
counterexample), but `validate`'s failure flag masks `hasError` whenever
`isEmpty` is true, so a violating result never reports a failure. -/
theorem C3_thm :
    (∀ v : String, (empty v).hasError = false) ∧
    (∀ (v : String) (r : String → Bool),
      (regExp v r).isEmpty = true → (regExp v r).hasError = false) ∧
    (∀ (env : Env) (v : String),
      (email env v).isEmpty = true → (email env v).hasError = false) ∧
    (∀ (env : Env) (v : String),
      (tel env v).isEmpty = true → (tel env v).hasError = false) ∧
    (∀ (t : String → Bool) (v : String) (fld : FieldSpec) (cfg : List String),
      (runChecker (.regex t) v fld cfg).isEmpty = true →
      (runChecker (.regex t) v fld cfg).hasError = false) ∧
    (∀ (ck : Checker) (fld : FieldSpec) (cfg : List String),
      (runChecker ck fld.value fld cfg).isEmpty = true →
      customValidationType ck fld (some cfg) = false) := by
  refine ⟨fun v => rfl, regExp_hasError_of_isEmpty, ?_, ?_, ?_, ?_⟩
  · intro env v h; exact regExp_hasError_of_isEmpty v env.emailTest h
  · intro env v h; exact regExp_hasError_of_isEmpty v env.telTest h
  · intro t v fld cfg h; exact regExp_hasError_of_isEmpty v t h
  · exact customValidationType_of_isEmpty

/-- Witness for C3: the theorem applied at the blank value `" "` and an
always-failing regex. -/
theorem C3_wit :
    (regExp " " (fun _ => false)).isEmpty = true ∧
    (regExp " " (fun _ => false)).hasError = false := by
  refine ⟨by decide, C3_thm.2.1 " " (fun _ => false) (by decide)⟩

/-- Counterexample for C3 as frozen: a function-based custom checker whose
predicate rejects a blank value returns a `CheckResult` with
`isEmpty = true` and `hasError = true` simultaneously. -/
theorem C3_cex :
    (runChecker (.func (fun _ _ _ => false)) "" exPlainField []).isEmpty = true ∧
    (runChecker (.func (fun _ _ _ => false)) "" exPlainField []).hasError = true := by
  exact ⟨rfl, rfl⟩

/-- C7 — corrected.  Characterization of `setFieldCheck`: it throws at
registration time iff the name is not a string, or the checker is
undefined, or the checker is neither a RegExp nor a Function; every
string name — including the empty string — with a RegExp or Function
checker registers successfully (name non-emptiness is not enforced). -/
theorem C7_thm :
    (∀ (c : CheckerArg) (reg : Registry),
      setFieldCheck .nonString c reg =
        .error "ValidateLight - You must define a string name and a method for your new validation rule") ∧
    (∀ (s : String) (reg : Registry),
      setFieldCheck (.str s) .undef reg =
        .error "ValidateLight - You must define a string name and a method for your new validation rule") ∧
    (∀ (s : String) (t : String → Bool) (reg : Registry),
      setFieldCheck (.str s) (.regex t) reg = .ok (regSet reg s (.regex t))) ∧
    (∀ (s : String) (p : String → FieldSpec → List String → Bool) (reg : Registry),
      setFieldCheck (.str s) (.func p) reg = .ok (regSet reg s (.func p))) ∧
    (∀ (s : String) (reg : Registry),
      setFieldCheck (.str s) .other reg =
        .error "ValidateLight - Your new validation method is invalid") := by
  refine ⟨fun c reg => ?_, fun s reg => rfl, fun s t reg => rfl,
    fun s p reg => rfl, fun s reg => rfl⟩
  cases c <;> rfl

/-- Counterexample for C7 as frozen: registering under the empty-string
name with a valid RegExp checker succeeds instead of throwing. -/
theorem C7_cex :
    ∃ reg1, setFieldCheck (.str "") (.regex (fun _ => true)) [] = .ok reg1 :=
  ⟨_, rfl⟩

/-! ## Walk lemmas -/

theorem regExp_hasError_of_blank (v : String) (r : String → Bool)
    (h : jsTrim v = "") : (regExp v r).hasError = false := by
  simp [regExp, empty, h]

theorem hideError_classes (d : Deco) : (hideError d).classes = d.classes := by
  simp [hideError]; split <;> rfl

theorem hideError_events (d : Deco) : (hideError d).events = d.events := by
  simp [hideError]; split <;> rfl

theorem hideError_errorBlock (d : Deco) : (hideError d).errorBlock = d.errorBlock := by
  simp [hideError]; split <;> rfl

theorem applyPass_events (d : Deco) (v : String) :
    (applyPass d v).events = d.events := by
  simp [applyPass, hideError_events]

theorem applyPass_errorBlock (d : Deco) (v : String) :
    (applyPass d v).errorBlock = d.errorBlock := by
  simp [applyPass, hideError_errorBlock]

theorem applyFail_events (ps : Params) (d : Deco) (m : Option (Option String)) :
    (applyFail ps d m).events = d.events ++ ["validate-light:error"] := rfl

theorem applyFail_errorBlock (ps : Params) (d : Deco) (m : Option (Option String)) :
    (applyFail ps d m).errorBlock = some (jsStr m) := rfl

theorem mem_classAdd (cs : List String) (c a : String) :
    a ∈ classAdd cs c ↔ a ∈ cs ∨ a = c := by
  simp only [classAdd]
  split
  · rename_i h
    exact ⟨Or.inl, fun x => x.elim id (fun ha => ha ▸ h)⟩
  · simp [List.mem_append]

theorem mem_classRemove (cs : List String) (c a : String) :
    a ∈ classRemove cs c ↔ a ∈ cs ∧ a ≠ c := by
  simp [classRemove, List.mem_filter]

theorem applyPass_classes (d : Deco) (v : String) :
    (("is-valid" ∈ (applyPass d v).classes ↔ v ≠ "") ∧
     "is-invalid" ∉ (applyPass d v).classes) := by
  have hcs : (applyPass d v).classes =
      (if v != "" then
        classAdd (classRemove d.classes "is-invalid") "is-valid"
      else
        classRemove (classRemove d.classes "is-invalid") "is-valid") := by
    simp [applyPass, hideError_classes]
  rw [hcs]
  by_cases hv : v = ""
  · subst hv
    simp [mem_classRemove]
  · have : (v != "") = true := by simpa using hv
    rw [this]
    simp only [if_pos rfl, reduceIte]
    constructor
    · simp [mem_classAdd, hv]
    · simp [mem_classAdd, mem_classRemove]

theorem walk_cons_fail (ps : Params) (f : FieldSpec) (e : ConfigEntry)
    (rest : List ConfigEntry) (d : Deco)
    (hc : e.checkCondition = true) (hv : e.validationType = true) :
    walkConfig ps f (e :: rest) d = (false, applyFail ps d e.msg) := by
  simp [walkConfig, hc, hv]

theorem walk_cons_pass (ps : Params) (f : FieldSpec) (e : ConfigEntry)
    (rest : List ConfigEntry) (d : Deco)
    (hc : e.checkCondition = true) (hv : e.validationType = false) :
    walkConfig ps f (e :: rest) d = walkConfig ps f rest (applyPass d f.value) := by
  simp [walkConfig, hc, hv]

theorem walk_cons_skip (ps : Params) (f : FieldSpec) (e : ConfigEntry)
    (rest : List ConfigEntry) (d : Deco)
    (hc : e.checkCondition = false) :
    walkConfig ps f (e :: rest) d = walkConfig ps f rest d := by
  simp [walkConfig, hc]

theorem find?_cFail_cons_true (e : ConfigEntry) (rest : List ConfigEntry)
    (hf : cFail e = true) :
    List.find? cFail (e :: rest) = some e := by
  simp [List.find?, hf]

theorem find?_cFail_cons_false (e : ConfigEntry) (rest : List ConfigEntry)
    (hf : cFail e = false) :
    List.find? cFail (e :: rest) = List.find? cFail rest := by
  simp [List.find?, hf]

theorem cFail_false_of_cond (e : ConfigEntry) (hc : e.checkCondition = false) :
    cFail e = false := by
  simp [cFail, hc]

theorem cFail_false_of_vt (e : ConfigEntry) (hv : e.validationType = false) :
    cFail e = false := by
  simp [cFail, hv]

theorem walk_nocond (ps : Params) (f : FieldSpec) :
    ∀ (es : List ConfigEntry) (d : Deco),
    (∀ e ∈ es, e.checkCondition = false) →
    walkConfig ps f es d = (true, d) := by
  intro es
  induction es with
  | nil => intro d _; rfl
  | cons e rest ih =>
      intro d h
      rw [walk_cons_skip ps f e rest d (h e (List.mem_cons_self e rest))]
      exact ih d (fun x hx => h x (List.mem_cons_of_mem e hx))

theorem walk_pass_iff (ps : Params) (f : FieldSpec) :
    ∀ (es : List ConfigEntry) (d : Deco),
    ((walkConfig ps f es d).1 = true ↔ es.find? cFail = none) := by
  intro es
  induction es with
  | nil => intro d; simp [walkConfig, List.find?]
  | cons e rest ih =>
      intro d
      rcases Bool.eq_false_or_eq_true e.checkCondition with hc | hc
      · rcases Bool.eq_false_or_eq_true e.validationType with hv | hv
        · rw [walk_cons_fail ps f e rest d hc hv,
            find?_cFail_cons_true e rest (by simp [cFail, hc, hv])]
          simp
        · rw [walk_cons_pass ps f e rest d hc hv,
            find?_cFail_cons_false e rest (cFail_false_of_vt e hv)]
          exact ih (applyPass d f.value)
      · rw [walk_cons_skip ps f e rest d hc,
          find?_cFail_cons_false e rest (cFail_false_of_cond e hc)]
        exact ih d

theorem walk_fail (ps : Params) (f : FieldSpec) :
    ∀ (es : List ConfigEntry) (d : Deco) (e : ConfigEntry),
    es.find? cFail = some e →
    ∃ d1 : Deco, walkConfig ps f es d = (false, applyFail ps d1 e.msg) ∧
      d1.events = d.events ∧ d1.errorBlock = d.errorBlock := by
  intro es
  induction es with
  | nil => intro d e h; simp [List.find?] at h
  | cons e0 rest ih =>
      intro d e h
      rcases Bool.eq_false_or_eq_true e0.checkCondition with hc | hc
      · rcases Bool.eq_false_or_eq_true e0.validationType with hv | hv
        · rw [find?_cFail_cons_true e0 rest (by simp [cFail, hc, hv])] at h
          cases h
          exact ⟨d, walk_cons_fail ps f e0 rest d hc hv, rfl, rfl⟩
        · rw [find?_cFail_cons_false e0 rest (cFail_false_of_vt e0 hv)] at h
          obtain ⟨d1, hw, hev, heb⟩ := ih (applyPass d f.value) e h
          exact ⟨d1, by rw [walk_cons_pass ps f e0 rest d hc hv]; exact hw,
            by rw [hev, applyPass_events],
            by rw [heb, applyPass_errorBlock]⟩
      · rw [find?_cFail_cons_false e0 rest (cFail_false_of_cond e0 hc)] at h
        obtain ⟨d1, hw, hev, heb⟩ := ih d e h
        exact ⟨d1, by rw [walk_cons_skip ps f e0 rest d hc]; exact hw, hev, heb⟩

theorem walk_pass_events (ps : Params) (f : FieldSpec) :
    ∀ (es : List ConfigEntry) (d : Deco),
    (walkConfig ps f es d).1 = true →
    (walkConfig ps f es d).2.events = d.events := by
  intro es
  induction es with
  | nil => intro d _; rfl
  | cons e rest ih =>
      intro d h
      rcases Bool.eq_false_or_eq_true e.checkCondition with hc | hc
      · rcases Bool.eq_false_or_eq_true e.validationType with hv | hv
        · rw [walk_cons_fail ps f e rest d hc hv] at h
          simp at h
        · rw [walk_cons_pass ps f e rest d hc hv] at h ⊢
          rw [ih (applyPass d f.value) h, applyPass_events]
      · rw [walk_cons_skip ps f e rest d hc] at h ⊢
        exact ih d h

theorem walk_pass_classes (ps : Params) (f : FieldSpec) :
    ∀ (es : List ConfigEntry) (d : Deco),
    (walkConfig ps f es d).1 = true →
    es.any (fun e => e.checkCondition) = true →
    (("is-valid" ∈ (walkConfig ps f es d).2.classes ↔ f.value ≠ "") ∧
     "is-invalid" ∉ (walkConfig ps f es d).2.classes) := by
  intro es
  induction es with
  | nil => intro d _ h; simp at h
  | cons e rest ih =>
      intro d hpass hany
      rcases Bool.eq_false_or_eq_true e.checkCondition with hc | hc
      · rcases Bool.eq_false_or_eq_true e.validationType with hv | hv
        · rw [walk_cons_fail ps f e rest d hc hv] at hpass
          simp at hpass
        · rw [walk_cons_pass ps f e rest d hc hv] at hpass ⊢
          rcases Bool.eq_false_or_eq_true (rest.any (fun e => e.checkCondition)) with hr | hr
          · exact ih (applyPass d f.value) hpass hr
          · have hall : ∀ x ∈ rest, x.checkCondition = false := by
              intro x hx
              rcases Bool.eq_false_or_eq_true x.checkCondition with h1 | h1
              · exact absurd (by
                  simp only [List.any_eq_true]
                  exact ⟨x, hx, h1⟩ : rest.any (fun e => e.checkCondition) = true) (by simp [hr])
              · exact h1
            rw [walk_nocond ps f rest (applyPass d f.value) hall]
            exact applyPass_classes d f.value
      · rw [walk_cons_skip ps f e rest d hc] at hpass ⊢
        have hr : rest.any (fun e => e.checkCondition) = true := by
          simp only [List.any_cons, hc, Bool.false_or] at hany
          exact hany
        exact ih d hpass hr

theorem find?_append_left {α : Type} (p : α → Bool) :
    ∀ (l1 l2 : List α) (a : α), l1.find? p = some a →
    (l1 ++ l2).find? p = some a := by
  intro l1
  induction l1 with
  | nil => intro l2 a h; simp [List.find?] at h
  | cons x rest ih =>
      intro l2 a h
      rcases Bool.eq_false_or_eq_true (p x) with hp | hp
      · rw [List.cons_append]
        simp only [List.find?, hp] at h ⊢
        exact h
      · rw [List.cons_append]
        simp only [List.find?, hp] at h ⊢
        exact ih l2 a h

/-! ## Messages object lemmas -/

theorem find?_map_set {v : Option String} {k : String} :
    ∀ (l : List (String × Option String)),
    (List.find? (fun p => p.1 == k) l).isSome = true →
    List.find? (fun p => p.1 == k)
        (l.map (fun p => if p.1 == k then (k, v) else p)) = some (k, v) := by
  intro l
  induction l with
  | nil => intro h; simp [List.find?] at h
  | cons p rest ih =>
      intro h
      rcases Bool.eq_false_or_eq_true (p.1 == k) with hp | hp
      · simp [hp, List.find?]
      · simp only [List.find?, hp] at h
        simp only [List.map_cons, hp, Bool.false_eq_true, reduceIte,
          List.find?, hp]
        exact ih h

theorem msgGet_msgSet_self (m : Messages) (k : String) (v : Option String) :
    msgGet (msgSet m k v) k = some v := by
  unfold msgSet
  split
  · rename_i hex
    unfold msgGet
    rw [find?_map_set m hex]
    rfl
  · rename_i hex
    unfold msgGet
    have hnone : List.find? (fun p => p.1 == k) m = none := by
      cases hcase : List.find? (fun p => p.1 == k) m with
      | none => rfl
      | some p => rw [hcase] at hex; simp at hex
    simp [List.find?_append, hnone, List.find?]

theorem msgGet_msgSet_ne (m : Messages) (k0 k : String)
    (v : Option String) (h : k0 ≠ k) :
    msgGet (msgSet m k0 v) k = msgGet m k := by
  unfold msgSet msgGet
  have hmap : ∀ l : List (String × Option String),
      ((l.map (fun p => if p.1 == k0 then (k0, v) else p)).find?
        (fun p => p.1 == k)).map Prod.snd =
      (l.find? (fun p => p.1 == k)).map Prod.snd := by
    intro l
    induction l with
    | nil => rfl
    | cons p rest ih =>
        rcases Bool.eq_false_or_eq_true (p.1 == k0) with hp | hp
        · have hk0 : (k0 == k) = false := by
            simp only [beq_eq_false_iff_ne]; exact h
          have hpk : (p.1 == k) = false := by
            have hp1 : p.1 = k0 := by simpa using hp
            simp only [beq_eq_false_iff_ne, hp1]; exact h
          simp only [List.map_cons, hp, if_true, reduceIte, List.find?, hk0, hpk]
          exact ih
        · simp only [List.map_cons, hp, Bool.false_eq_true, reduceIte, List.find?]
          rcases Bool.eq_false_or_eq_true (p.1 == k) with hpk | hpk
          · simp only [hpk]
          · simp only [hpk]
            exact ih
  have happ : ∀ l : List (String × Option String),
      (l ++ [(k0, v)]).find? (fun p => p.1 == k) =
      l.find? (fun p => p.1 == k) := by
    intro l
    have hk0 : (k0 == k) = false := by
      simp only [beq_eq_false_iff_ne]; exact h
    simp [List.find?_append, List.find?, hk0]
  split
  · exact hmap m
  · rw [happ m]

/-! ## buildCustomEntries lemmas -/

theorem bce_cons (formAttr : String → Option String) (field : FieldSpec)
    (k : String) (ck : Checker) (rest : Registry) (msgs : Messages) :
    buildCustomEntries formAttr field ((k, ck) :: rest) msgs =
      (if truthyStr (formAttr ("data-msg-" ++ k)) = false then
        (msgSet msgs k (formAttr ("data-msg-" ++ k)),
          .error ("ValidateLight - You must define an error message for your new \"" ++ k ++ "\" validation rule. Set it on the form tag adding the data-msg-" ++ k ++ " attribute"))
      else
        match buildCustomEntries formAttr field rest
            (msgSet msgs k (formAttr ("data-msg-" ++ k))) with
        | (msgs2, .ok entries) =>
            (msgs2, .ok (canonEntry formAttr field k ck :: entries))
        | (msgs2, .error e) => (msgs2, .error e)) := by
  rcases Bool.eq_false_or_eq_true (truthyStr (formAttr ("data-msg-" ++ k))) with ht | ht
  · simp [buildCustomEntries, msgGet_msgSet_self, truthyProp, ht, canonEntry]
  · simp [buildCustomEntries, msgGet_msgSet_self, truthyProp, ht, canonEntry]

theorem bce_entries_shape (formAttr : String → Option String) (field : FieldSpec) :
    ∀ (reg : Registry) (msgs msgs1 : Messages) (customs : List ConfigEntry),
    buildCustomEntries formAttr field reg msgs = (msgs1, .ok customs) →
    ∀ e ∈ customs, ∃ k ck, (k, ck) ∈ reg ∧ e = canonEntry formAttr field k ck := by
  intro reg
  induction reg with
  | nil =>
      intro msgs msgs1 customs h e he
      simp [buildCustomEntries] at h
      rw [h.2] at he
      simp at he
  | cons p rest ih =>
      intro msgs msgs1 customs h e he
      obtain ⟨k, ck⟩ := p
      rw [bce_cons] at h
      rcases Bool.eq_false_or_eq_true (truthyStr (formAttr ("data-msg-" ++ k))) with ht | ht
      · rw [if_neg (by simp [ht])] at h
        rcases hrest : buildCustomEntries formAttr field rest
            (msgSet msgs k (formAttr ("data-msg-" ++ k))) with ⟨msgs2, res⟩
        rw [hrest] at h
        cases res with
        | error e0 => simp at h
        | ok entries =>
            simp only [Prod.mk.injEq, Except.ok.injEq] at h
            rw [← h.2] at he
            rcases List.mem_cons.mp he with he1 | he1
            · exact ⟨k, ck, List.mem_cons_self _ _, he1⟩
            · obtain ⟨k1, ck1, hmem, hek⟩ :=
                ih _ msgs2 entries (by rw [hrest]) e he1
              exact ⟨k1, ck1, List.mem_cons_of_mem _ hmem, hek⟩
      · rw [if_pos ht] at h
        simp at h

theorem bce_isOk (formAttr : String → Option String) (field : FieldSpec) :
    ∀ (reg : Registry) (msgs : Messages),
    isOkE (buildCustomEntries formAttr field reg msgs).2 =
      reg.all (fun p => truthyStr (formAttr ("data-msg-" ++ p.1))) := by
  intro reg
  induction reg with
  | nil => intro msgs; simp [buildCustomEntries, isOkE]
  | cons p rest ih =>
      intro msgs
      obtain ⟨k, ck⟩ := p
      rw [bce_cons]
      rcases Bool.eq_false_or_eq_true (truthyStr (formAttr ("data-msg-" ++ k))) with ht | ht
      · rw [if_neg (by simp [ht])]
        rcases hrest : buildCustomEntries formAttr field rest
            (msgSet msgs k (formAttr ("data-msg-" ++ k))) with ⟨msgs2, res⟩
        have hih := ih (msgSet msgs k (formAttr ("data-msg-" ++ k)))
        rw [hrest] at hih
        cases res with
        | error e0 => simp only [List.all_cons, ht, Bool.true_and]; exact hih
        | ok entries => simp only [List.all_cons, ht, Bool.true_and]; exact hih
      · rw [if_pos ht]
        simp [isOkE, List.all_cons, ht]

theorem evaluateField_ok (env : Env) (ps : Params)
    (formAttr : String → Option String) (reg : Registry) (field : FieldSpec)
    (msgs : Messages) (deco : Deco) (msgs1 : Messages)
    (customs : List ConfigEntry)
    (h : buildCustomEntries formAttr field reg msgs = (msgs1, .ok customs)) :
    evaluateField env ps formAttr reg field msgs deco =
      { msgs := msgs1, error := none,
        passed := (walkConfig ps field (builtinConfig env msgs field ++ customs) deco).1,
        deco := (walkConfig ps field (builtinConfig env msgs field ++ customs) deco).2 } := by
  simp [evaluateField, h]

theorem evaluateField_err (env : Env) (ps : Params)
    (formAttr : String → Option String) (reg : Registry) (field : FieldSpec)
    (msgs : Messages) (deco : Deco) (msgs1 : Messages) (e : String)
    (h : buildCustomEntries formAttr field reg msgs = (msgs1, .error e)) :
    evaluateField env ps formAttr reg field msgs deco =
      { msgs := msgs1, error := some e, passed := false, deco := deco } := by
  simp [evaluateField, h]

/-! ## C1 -/

/-- C1 — confirmed.  Per-field evaluation walks the candidates in the
fixed order: the five built-in entries (`builtinConfig`, in source order
[required, email, tel, required-checkbox, required-radio]) followed by
the custom entries in registry iteration order; the field passes iff no
candidate has both `checkCondition` and the failure flag set; otherwise
the FIRST such candidate alone is reported (its message fills the error
block and exactly one failure event is dispatched); and a failing
built-in candidate always wins over every custom candidate.  (The spec's
email+required+custom scenario is the witness.) -/
theorem C1_thm (env : Env) (ps : Params) (formAttr : String → Option String)
    (reg : Registry) (field : FieldSpec) (msgs : Messages) (deco : Deco)
    (msgs1 : Messages) (customs : List ConfigEntry)
    (h : buildCustomEntries formAttr field reg msgs = (msgs1, .ok customs)) :
    ((evaluateField env ps formAttr reg field msgs deco).error = none) ∧
    ((evaluateField env ps formAttr reg field msgs deco).passed = true ↔
      (builtinConfig env msgs field ++ customs).find? cFail = none) ∧
    (∀ e : ConfigEntry,
      (builtinConfig env msgs field ++ customs).find? cFail = some e →
      (evaluateField env ps formAttr reg field msgs deco).passed = false ∧
      (evaluateField env ps formAttr reg field msgs deco).deco.errorBlock =
        some (jsStr e.msg) ∧
      (evaluateField env ps formAttr reg field msgs deco).deco.events =
        deco.events ++ ["validate-light:error"]) ∧
    (∀ e : ConfigEntry,
      (builtinConfig env msgs field).find? cFail = some e →
      (builtinConfig env msgs field ++ customs).find? cFail = some e) := by
  rw [evaluateField_ok env ps formAttr reg field msgs deco msgs1 customs h]
  refine ⟨rfl, walk_pass_iff ps field _ deco, ?_, ?_⟩
  · intro e hfind
    obtain ⟨d1, hw, hev, heb⟩ := walk_fail ps field _ deco e hfind
    refine ⟨by rw [hw], ?_, ?_⟩
    · show (walkConfig ps field (builtinConfig env msgs field ++ customs) deco).2.errorBlock = _
      rw [hw, applyFail_errorBlock]
    · show (walkConfig ps field (builtinConfig env msgs field ++ customs) deco).2.events = _
      rw [hw, applyFail_events, hev]
  · intro e hfind
    exact find?_append_left cFail _ customs e hfind

/-- Witness for C1: the spec's scenario — a field
`type=email required data-validate-foo="x"` with value `""`, rule `foo`
registered with its message present — fails with the `required` message
specifically, and a single failure event is dispatched. -/
theorem C1_wit :
    (evaluateField exEnv defaultParams exAttrFoo exRegFoo exFieldC1 exMsgs exDeco).passed = false ∧
    (evaluateField exEnv defaultParams exAttrFoo exRegFoo exFieldC1 exMsgs exDeco).deco.errorBlock = some "Required!" ∧
    (evaluateField exEnv defaultParams exAttrFoo exRegFoo exFieldC1 exMsgs exDeco).deco.events = ["validate-light:error"] := by
  have h := (C1_thm exEnv defaultParams exAttrFoo exRegFoo exFieldC1 exMsgs exDeco
      (msgSet exMsgs "foo" (some "Bad foo"))
      [{ checkCondition := true, validationType := false, msg := some (some "Bad foo") }]
      (by rfl)).2.2.1
      { checkCondition := true, validationType := true, msg := some (some "Required!") }
      (by rfl)
  exact ⟨h.1, by rw [h.2.1]; rfl, by rw [h.2.2]; rfl⟩

/-! ## C8 -/

/-- C8 — confirmed.  A field whose `required` attribute is absent and
whose value is blank (empty after trimming) passes evaluation regardless
of which format rules (email, tel, or any active custom rule) apply to
it: emptiness suppresses format checks.  (Hypothesis `h` says the
custom-check loop completed without a configuration error.) -/
theorem C8_thm (env : Env) (ps : Params) (formAttr : String → Option String)
    (reg : Registry) (field : FieldSpec) (msgs : Messages) (deco : Deco)
    (msgs1 : Messages) (customs : List ConfigEntry)
    (hreq : field.required = false)
    (hblank : jsTrim field.value = "")
    (h : buildCustomEntries formAttr field reg msgs = (msgs1, .ok customs)) :
    (evaluateField env ps formAttr reg field msgs deco).passed = true := by
  rw [evaluateField_ok env ps formAttr reg field msgs deco msgs1 customs h]
  show (walkConfig ps field (builtinConfig env msgs field ++ customs) deco).1 = true
  rw [walk_pass_iff ps field _ deco, List.find?_eq_none]
  intro e he
  rcases List.mem_append.mp he with hb | hcu
  · simp only [builtinConfig, List.mem_cons, List.mem_singleton] at hb
    rcases hb with rfl | rfl | rfl | rfl | rfl | hfalse
    · simp [cFail, hreq]
    · simp [cFail, email, regExp_hasError_of_blank field.value env.emailTest hblank]
    · simp [cFail, tel, regExp_hasError_of_blank field.value env.telTest hblank]
    · simp [cFail, hreq]
    · simp [cFail, hreq]
    · simp at hfalse
  · obtain ⟨k, ck, hmem, rfl⟩ :=
      bce_entries_shape formAttr field reg msgs msgs1 customs h e hcu
    cases hdc : (attrLookup field.dataValidate k).map (fun s => jsSplitComma s) with
    | none => simp [cFail, canonEntry, customValidationType, hdc]
    | some cfg =>
        simp [cFail, canonEntry, customValidationType, hdc,
          runChecker_isEmpty ck field.value field cfg hblank]

/-- Witness for C8: a whitespace-valued optional email field that also
activates the always-failing custom rule `foo` nevertheless passes. -/
theorem C8_wit :
    (evaluateField exEnv defaultParams exAttrFoo exRegFoo exBlankEmailFoo exMsgs exDeco).passed = true := by
  exact C8_thm exEnv defaultParams exAttrFoo exRegFoo exBlankEmailFoo exMsgs exDeco
    (msgSet exMsgs "foo" (some "Bad foo"))
    [{ checkCondition := true, validationType := false, msg := some (some "Bad foo") }]
    rfl (by decide) rfl

/-! ## C9 -/

/-- C9 — corrected.  For a field that passes evaluation (with the default
class parameters): if at least one candidate rule was applicable
(`checkCondition`), then afterwards `is-valid` is present iff the raw
value is non-empty and `is-invalid` is absent — in particular a blank
optional field that passes gets neither class; but if NO candidate was
applicable, the field's decoration is left completely untouched, so a
non-empty passing field receives no `is-valid` indicator (refuting the
claim's unconditional "iff non-empty"). -/
theorem C9_thm (env : Env) (formAttr : String → Option String)
    (reg : Registry) (field : FieldSpec) (msgs : Messages) (deco : Deco)
    (msgs1 : Messages) (customs : List ConfigEntry)
    (h : buildCustomEntries formAttr field reg msgs = (msgs1, .ok customs))
    (hp : (evaluateField env defaultParams formAttr reg field msgs deco).passed = true) :
    (((builtinConfig env msgs field ++ customs).any (fun e => e.checkCondition) = true →
      (("is-valid" ∈ (evaluateField env defaultParams formAttr reg field msgs deco).deco.classes ↔
        field.value ≠ "") ∧
       "is-invalid" ∉ (evaluateField env defaultParams formAttr reg field msgs deco).deco.classes)) ∧
     ((builtinConfig env msgs field ++ customs).any (fun e => e.checkCondition) = false →
      (evaluateField env defaultParams formAttr reg field msgs deco).deco = deco)) := by
  rw [evaluateField_ok env defaultParams formAttr reg field msgs deco msgs1 customs h] at hp ⊢
  constructor
  · intro hany
    exact walk_pass_classes defaultParams field _ deco hp hany
  · intro hnone
    have hall : ∀ x ∈ builtinConfig env msgs field ++ customs, x.checkCondition = false := by
      intro x hx
      rcases Bool.eq_false_or_eq_true x.checkCondition with h1 | h1
      · exact absurd (by
          simp only [List.any_eq_true]
          exact ⟨x, hx, h1⟩ :
            (builtinConfig env msgs field ++ customs).any (fun e => e.checkCondition) = true)
          (by simp [hnone])
      · exact h1
    show (walkConfig defaultParams field (builtinConfig env msgs field ++ customs) deco).2 = deco
    rw [walk_nocond defaultParams field _ deco hall]

/-- Witness for C9: a blank optional email field (the email rule is
applicable and passes) ends up with neither `is-valid` nor `is-invalid`. -/
theorem C9_wit :
    "is-valid" ∉ (evaluateField exEnv defaultParams exAttrNone [] exBlankEmailField exMsgs exDeco).deco.classes ∧
    "is-invalid" ∉ (evaluateField exEnv defaultParams exAttrNone [] exBlankEmailField exMsgs exDeco).deco.classes := by
  have h := (C9_thm exEnv exAttrNone [] exBlankEmailField exMsgs exDeco exMsgs [] rfl rfl).1 rfl
  exact ⟨fun hm => (h.1.mp hm) rfl, h.2⟩

/-- Counterexample for C9 as frozen: a non-empty optional text field with
no applicable rule passes but receives no `is-valid` class, refuting
"the valid indicator is applied iff the field is non-empty". -/
theorem C9_cex :
    (evaluateField exEnv defaultParams exAttrNone [] exHelloField exMsgs exDeco).passed = true ∧
    exHelloField.value ≠ "" ∧
    "is-valid" ∉ (evaluateField exEnv defaultParams exAttrNone [] exHelloField exMsgs exDeco).deco.classes := by
  refine ⟨rfl, by decide, by decide⟩

/-! ## C10 -/

/-- C10 — confirmed.  A field for which no candidate rule is applicable
(not required, type neither email nor tel, and no `data-validate-*`
attribute for any registered rule) is counted as passed and receives no
UI side effect whatsoever: its decoration (classes, error block, events)
is exactly what it was before the call. -/
theorem C10_thm (env : Env) (ps : Params) (formAttr : String → Option String)
    (reg : Registry) (field : FieldSpec) (msgs : Messages) (deco : Deco)
    (msgs1 : Messages) (customs : List ConfigEntry)
    (hreq : field.required = false)
    (hemail : field.type ≠ "email")
    (htel : field.type ≠ "tel")
    (hdata : ∀ p ∈ reg, attrLookup field.dataValidate p.1 = none)
    (h : buildCustomEntries formAttr field reg msgs = (msgs1, .ok customs)) :
    (evaluateField env ps formAttr reg field msgs deco).error = none ∧
    (evaluateField env ps formAttr reg field msgs deco).passed = true ∧
    (evaluateField env ps formAttr reg field msgs deco).deco = deco := by
  rw [evaluateField_ok env ps formAttr reg field msgs deco msgs1 customs h]
  have hall : ∀ x ∈ builtinConfig env msgs field ++ customs, x.checkCondition = false := by
    intro x hx
    rcases List.mem_append.mp hx with hb | hcu
    · simp only [builtinConfig, List.mem_cons, List.mem_singleton] at hb
      rcases hb with rfl | rfl | rfl | rfl | rfl | hfalse
      · simp [hreq]
      · simp [hemail]
      · simp [htel]
      · simp [hreq]
      · simp [hreq]
      · simp at hfalse
    · obtain ⟨k, ck, hmem, rfl⟩ :=
        bce_entries_shape formAttr field reg msgs msgs1 customs h x hcu
      simp [canonEntry, hdata (k, ck) hmem]
  have hw := walk_nocond ps field (builtinConfig env msgs field ++ customs) deco hall
  exact ⟨rfl, by rw [hw], by rw [hw]⟩

/-- Witness for C10: a plain optional text input with no
`data-validate-*` attribute, while the custom rule `foo` is registered
(with its message present), passes and keeps its decoration untouched. -/
theorem C10_wit :
    (evaluateField exEnv defaultParams exAttrFoo exRegFoo exPlainField exMsgs exDeco).error = none ∧
    (evaluateField exEnv defaultParams exAttrFoo exRegFoo exPlainField exMsgs exDeco).passed = true ∧
    (evaluateField exEnv defaultParams exAttrFoo exRegFoo exPlainField exMsgs exDeco).deco = exDeco := by
  exact C10_thm exEnv defaultParams exAttrFoo exRegFoo exPlainField exMsgs exDeco
    (msgSet exMsgs "foo" (some "Bad foo"))
    [{ checkCondition := false, validationType := false, msg := some (some "Bad foo") }]
    rfl (by decide) (by decide) (by decide) rfl

/-! ## Messages lemmas -/

theorem bce_msgs_notin (formAttr : String → Option String)
    (field : FieldSpec) :
    ∀ (reg : Registry) (msgs : Messages) (k : String),
    (∀ p ∈ reg, p.1 ≠ k) →
    msgGet (buildCustomEntries formAttr field reg msgs).1 k = msgGet msgs k := by
  intro reg
  induction reg with
  | nil => intro msgs k _; rfl
  | cons p rest ih =>
      intro msgs k hk
      obtain ⟨k0, ck⟩ := p
      have hk0 : k0 ≠ k := hk (k0, ck) (List.mem_cons_self _ _)
      rw [bce_cons]
      rcases Bool.eq_false_or_eq_true (truthyStr (formAttr ("data-msg-" ++ k0))) with ht | ht
      · rw [if_neg (by simp [ht])]
        rcases hrest : buildCustomEntries formAttr field rest
            (msgSet msgs k0 (formAttr ("data-msg-" ++ k0))) with ⟨msgs2, res⟩
        have hih := ih (msgSet msgs k0 (formAttr ("data-msg-" ++ k0))) k
          (fun p hp => hk p (List.mem_cons_of_mem _ hp))
        rw [hrest] at hih
        cases res with
        | error e0 => rw [hih, msgGet_msgSet_ne msgs k0 k _ hk0]
        | ok entries => rw [hih, msgGet_msgSet_ne msgs k0 k _ hk0]
      · rw [if_pos ht]
        exact msgGet_msgSet_ne msgs k0 k _ hk0

theorem bce_msgs_mem (formAttr : String → Option String) (field : FieldSpec) :
    ∀ (reg : Registry) (msgs msgs1 : Messages) (customs : List ConfigEntry),
    buildCustomEntries formAttr field reg msgs = (msgs1, .ok customs) →
    ∀ p ∈ reg, msgGet msgs1 p.1 = some (formAttr ("data-msg-" ++ p.1)) := by
  intro reg
  induction reg with
  | nil => intro msgs msgs1 customs h p hp; simp at hp
  | cons q rest ih =>
      intro msgs msgs1 customs h p hp
      obtain ⟨k0, ck0⟩ := q
      rw [bce_cons] at h
      rcases Bool.eq_false_or_eq_true (truthyStr (formAttr ("data-msg-" ++ k0))) with ht | ht
      · rw [if_neg (by simp [ht])] at h
        rcases hrest : buildCustomEntries formAttr field rest
            (msgSet msgs k0 (formAttr ("data-msg-" ++ k0))) with ⟨msgs2, res⟩
        rw [hrest] at h
        cases res with
        | error e0 => simp at h
        | ok entries =>
            have hm : msgs1 = msgs2 := by
              simp only [Prod.mk.injEq] at h
              exact h.1.symm
            rcases List.mem_cons.mp hp with rfl | hp1
            · by_cases hex : ∃ q1 ∈ rest, q1.1 = k0
              · obtain ⟨q1, hq1, hq1k⟩ := hex
                have hq := ih _ msgs2 entries (by rw [hrest]) q1 hq1
                rw [hq1k] at hq
                rw [hm]
                exact hq
              · have hnot : ∀ q1 ∈ rest, q1.1 ≠ k0 := by
                  intro q1 hq1 hcontra
                  exact hex ⟨q1, hq1, hcontra⟩
                have hpres := bce_msgs_notin formAttr field rest
                  (msgSet msgs k0 (formAttr ("data-msg-" ++ k0))) k0 hnot
                rw [hrest] at hpres
                rw [hm]
                show msgGet msgs2 k0 = some (formAttr ("data-msg-" ++ k0))
                rw [hpres, msgGet_msgSet_self]
            · have hq := ih _ msgs2 entries (by rw [hrest]) p hp1
              rw [hm]
              exact hq
      · rw [if_pos ht] at h
        simp at h

theorem evaluateField_msgs (env : Env) (ps : Params)
    (formAttr : String → Option String) (reg : Registry) (field : FieldSpec)
    (msgs : Messages) (deco : Deco) :
    (evaluateField env ps formAttr reg field msgs deco).msgs =
      (buildCustomEntries formAttr field reg msgs).1 := by
  rcases h : buildCustomEntries formAttr field reg msgs with ⟨msgs1, res⟩
  cases res with
  | error e => simp [evaluateField, h]
  | ok entries => simp [evaluateField, h]

theorem vf_cons_err (env : Env) (ps : Params) (formAttr : String → Option String)
    (reg : Registry) (f : FieldSpec) (d : Deco)
    (rest : List (FieldSpec × Deco)) (msgs : Messages) (e : String)
    (herr : (evaluateField env ps formAttr reg f msgs d).error = some e) :
    validateFields env ps formAttr reg ((f, d) :: rest) msgs =
      ((evaluateField env ps formAttr reg f msgs d).msgs, some e, false,
       (evaluateField env ps formAttr reg f msgs d).deco :: rest.map Prod.snd) := by
  simp [validateFields, herr]

theorem vf_cons_pass (env : Env) (ps : Params) (formAttr : String → Option String)
    (reg : Registry) (f : FieldSpec) (d : Deco)
    (rest : List (FieldSpec × Deco)) (msgs : Messages)
    (herr : (evaluateField env ps formAttr reg f msgs d).error = none)
    (hp : (evaluateField env ps formAttr reg f msgs d).passed = true) :
    validateFields env ps formAttr reg ((f, d) :: rest) msgs =
      ((validateFields env ps formAttr reg rest
          (evaluateField env ps formAttr reg f msgs d).msgs).1,
       (validateFields env ps formAttr reg rest
          (evaluateField env ps formAttr reg f msgs d).msgs).2.1,
       (validateFields env ps formAttr reg rest
          (evaluateField env ps formAttr reg f msgs d).msgs).2.2.1,
       (evaluateField env ps formAttr reg f msgs d).deco ::
         (validateFields env ps formAttr reg rest
            (evaluateField env ps formAttr reg f msgs d).msgs).2.2.2) := by
  simp [validateFields, herr, hp]

theorem vf_cons_fail (env : Env) (ps : Params) (formAttr : String → Option String)
    (reg : Registry) (f : FieldSpec) (d : Deco)
    (rest : List (FieldSpec × Deco)) (msgs : Messages)
    (herr : (evaluateField env ps formAttr reg f msgs d).error = none)
    (hp : (evaluateField env ps formAttr reg f msgs d).passed = false) :
    validateFields env ps formAttr reg ((f, d) :: rest) msgs =
      ((evaluateField env ps formAttr reg f msgs d).msgs, none, false,
       (evaluateField env ps formAttr reg f msgs d).deco :: rest.map Prod.snd) := by
  simp [validateFields, herr, hp]

theorem vf_msgs (env : Env) (ps : Params) (formAttr : String → Option String)
    (reg : Registry) :
    ∀ (fields : List (FieldSpec × Deco)) (msgs : Messages) (k : String),
    (∀ p ∈ reg, p.1 ≠ k) →
    msgGet (validateFields env ps formAttr reg fields msgs).1 k =
      msgGet msgs k := by
  intro fields
  induction fields with
  | nil => intro msgs k _; rfl
  | cons fd rest ih =>
      intro msgs k hk
      obtain ⟨f, d⟩ := fd
      have hom : (evaluateField env ps formAttr reg f msgs d).msgs =
          (buildCustomEntries formAttr f reg msgs).1 :=
        evaluateField_msgs env ps formAttr reg f msgs d
      rcases herr : (evaluateField env ps formAttr reg f msgs d).error with _ | e
      · rcases Bool.eq_false_or_eq_true
            (evaluateField env ps formAttr reg f msgs d).passed with hp | hp
        · rw [vf_cons_pass env ps formAttr reg f d rest msgs herr hp]
          rw [ih (evaluateField env ps formAttr reg f msgs d).msgs k hk, hom,
            bce_msgs_notin formAttr f reg msgs k hk]
        · rw [vf_cons_fail env ps formAttr reg f d rest msgs herr hp]
          rw [hom, bce_msgs_notin formAttr f reg msgs k hk]
      · rw [vf_cons_err env ps formAttr reg f d rest msgs e herr]
        rw [hom, bce_msgs_notin formAttr f reg msgs k hk]

theorem vf_msgs_mem (env : Env) (ps : Params) (formAttr : String → Option String)
    (reg : Registry) :
    ∀ (fields : List (FieldSpec × Deco)) (msgs : Messages),
    fields ≠ [] →
    (validateFields env ps formAttr reg fields msgs).2.1 = none →
    ∀ p ∈ reg,
      msgGet (validateFields env ps formAttr reg fields msgs).1 p.1 =
        some (formAttr ("data-msg-" ++ p.1)) := by
  intro fields
  induction fields with
  | nil => intro msgs hne _ _ _; exact absurd rfl hne
  | cons fd rest ih =>
      intro msgs _ herr p hp
      obtain ⟨f, d⟩ := fd
      rcases h : buildCustomEntries formAttr f reg msgs with ⟨m1, res⟩
      cases res with
      | error e =>
          have heval := evaluateField_err env ps formAttr reg f msgs d m1 e h
          rw [vf_cons_err env ps formAttr reg f d rest msgs e (by rw [heval])] at herr
          simp at herr
      | ok entries =>
          have heval := evaluateField_ok env ps formAttr reg f msgs d m1 entries h
          have herr0 : (evaluateField env ps formAttr reg f msgs d).error = none := by
            rw [heval]
          have hom : (evaluateField env ps formAttr reg f msgs d).msgs = m1 := by
            rw [heval]
          have hmem1 := bce_msgs_mem formAttr f reg msgs m1 entries h p hp
          rcases Bool.eq_false_or_eq_true
              (evaluateField env ps formAttr reg f msgs d).passed with hpass | hpass
          · have herr1 : (validateFields env ps formAttr reg rest
                (evaluateField env ps formAttr reg f msgs d).msgs).2.1 = none := by
              have htmp := herr
              rw [vf_cons_pass env ps formAttr reg f d rest msgs herr0 hpass] at htmp
              exact htmp
            have hgoal : msgGet (validateFields env ps formAttr reg
                  ((f, d) :: rest) msgs).1 p.1 =
                msgGet (validateFields env ps formAttr reg rest
                  (evaluateField env ps formAttr reg f msgs d).msgs).1 p.1 := by
              rw [vf_cons_pass env ps formAttr reg f d rest msgs herr0 hpass]
            rw [hgoal]
            cases rest with
            | nil =>
                show msgGet (evaluateField env ps formAttr reg f msgs d).msgs p.1 = _
                rw [hom]
                exact hmem1
            | cons r rs =>
                exact ih (evaluateField env ps formAttr reg f msgs d).msgs
                  (by simp) herr1 p hp
          · have hgoal : msgGet (validateFields env ps formAttr reg
                  ((f, d) :: rest) msgs).1 p.1 =
                msgGet (evaluateField env ps formAttr reg f msgs d).msgs p.1 := by
              rw [vf_cons_fail env ps formAttr reg f d rest msgs herr0 hpass]
            rw [hgoal, hom]
            exact hmem1

/-! ## C4 -/

/-- C4 — corrected.  `validate()` never mutates the custom-check
registry, and every message key that is NOT a registered rule name —
including the built-in slots, when no rule shares their name — is left
unchanged; but, refuting the claim, the form-messages object IS mutated
by `validate()`: each registered rule name `k` is reassigned via
`form.messages[k] = form.getAttribute('data-msg-' + k)` (proved here for
error-free runs over a non-empty field list), and because the keys share
one namespace, a custom rule registered under a built-in name overwrites
that built-in message slot (see the counterexample). -/
theorem C4_thm (env : Env) (ps : Params) (formAttr : String → Option String)
    (reg : Registry) (msgs : Messages) (fields : List (FieldSpec × Deco)) :
    (validate env ps formAttr reg msgs fields).reg = reg ∧
    (∀ k : String, (∀ p ∈ reg, p.1 ≠ k) →
      msgGet (validate env ps formAttr reg msgs fields).msgs k =
        msgGet msgs k) ∧
    (fields ≠ [] → (validate env ps formAttr reg msgs fields).error = none →
      ∀ p ∈ reg,
        msgGet (validate env ps formAttr reg msgs fields).msgs p.1 =
          some (formAttr ("data-msg-" ++ p.1))) := by
  refine ⟨rfl, ?_, ?_⟩
  · intro k hk
    exact vf_msgs env ps formAttr reg fields msgs k hk
  · intro hne herr
    exact vf_msgs_mem env ps formAttr reg fields msgs hne herr

/-- Witness for C4: with rule `foo` registered and its message attribute
present, a `validate()` call keeps the registry and the unrelated keys
`required` and `bar` unchanged, and assigns the key `foo` from the
`data-msg-foo` attribute. -/
theorem C4_wit :
    (validate exEnv defaultParams exAttrFoo exRegFoo exMsgs [(exPlainField, exDeco)]).reg = exRegFoo ∧
    msgGet (validate exEnv defaultParams exAttrFoo exRegFoo exMsgs [(exPlainField, exDeco)]).msgs "required" = msgGet exMsgs "required" ∧
    msgGet (validate exEnv defaultParams exAttrFoo exRegFoo exMsgs [(exPlainField, exDeco)]).msgs "bar" = msgGet exMsgs "bar" ∧
    msgGet (validate exEnv defaultParams exAttrFoo exRegFoo exMsgs [(exPlainField, exDeco)]).msgs "foo" = some (some "Bad foo") := by
  have h := C4_thm exEnv defaultParams exAttrFoo exRegFoo exMsgs [(exPlainField, exDeco)]
  refine ⟨h.1, h.2.1 "required" (by decide), h.2.1 "bar" (by decide), ?_⟩
  have hm := h.2.2 (by simp) (by decide)
    ("foo", Checker.func (fun _ _ _ => false)) (List.mem_cons_self _ _)
  exact hm.trans (by decide)

/-- Counterexample for C4 as frozen: `form.messages` is one shared-key
object, so validating with a custom rule registered under the built-in
name `required` overwrites the built-in `required` message slot from the
`data-msg-required` attribute — `validate()` mutates the mapping. -/
theorem C4_cex :
    msgGet exMsgs "required" = some (some "Required!") ∧
    msgGet (validate exEnv defaultParams exAttrReq exRegReq exMsgs [(exPlainField, exDeco)]).msgs "required" = some (some "Overwritten") := by
  exact ⟨by decide, by decide⟩

/-! ## Messages-independence of the walk's control flow -/

theorem builtinConfig_condvt (env : Env) (field : FieldSpec)
    (m1 m2 : Messages) :
    (builtinConfig env m1 field).map condvt =
      (builtinConfig env m2 field).map condvt := rfl

theorem bce_snd_msgs_indep (formAttr : String → Option String)
    (field : FieldSpec) :
    ∀ (reg : Registry) (m1 m2 : Messages),
    (buildCustomEntries formAttr field reg m1).2 =
      (buildCustomEntries formAttr field reg m2).2 := by
  intro reg
  induction reg with
  | nil => intro m1 m2; rfl
  | cons p rest ih =>
      intro m1 m2
      obtain ⟨k, ck⟩ := p
      rw [bce_cons, bce_cons]
      rcases Bool.eq_false_or_eq_true (truthyStr (formAttr ("data-msg-" ++ k))) with ht | ht
      · rw [if_neg (by simp [ht]), if_neg (by simp [ht])]
        rcases h1 : buildCustomEntries formAttr field rest
            (msgSet m1 k (formAttr ("data-msg-" ++ k))) with ⟨x1, r1⟩
        rcases h2 : buildCustomEntries formAttr field rest
            (msgSet m2 k (formAttr ("data-msg-" ++ k))) with ⟨x2, r2⟩
        have hr12 : r1 = r2 := by
          have hh := ih (msgSet m1 k (formAttr ("data-msg-" ++ k)))
            (msgSet m2 k (formAttr ("data-msg-" ++ k)))
          rw [h1, h2] at hh
          exact hh
        subst hr12
        cases r1 with
        | error e => rfl
        | ok entries => rfl
      · rw [if_pos ht, if_pos ht]

theorem walk_condvt_congr (ps : Params) (f : FieldSpec) :
    ∀ (es1 es2 : List ConfigEntry) (d : Deco),
    es1.map condvt = es2.map condvt →
    ((walkConfig ps f es1 d).1 = (walkConfig ps f es2 d).1 ∧
     (walkConfig ps f es1 d).2.events = (walkConfig ps f es2 d).2.events) := by
  intro es1
  induction es1 with
  | nil =>
      intro es2 d h
      cases es2 with
      | nil => exact ⟨rfl, rfl⟩
      | cons e2 r2 => simp at h
  | cons e1 r1 ih =>
      intro es2 d h
      cases es2 with
      | nil => simp at h
      | cons e2 r2 =>
          simp only [List.map_cons, List.cons.injEq] at h
          have hc : e1.checkCondition = e2.checkCondition :=
            congrArg Prod.fst h.1
          have hv : e1.validationType = e2.validationType :=
            congrArg Prod.snd h.1
          rcases Bool.eq_false_or_eq_true e1.checkCondition with hc1 | hc1
          · rcases Bool.eq_false_or_eq_true e1.validationType with hv1 | hv1
            · rw [walk_cons_fail ps f e1 r1 d hc1 hv1,
                walk_cons_fail ps f e2 r2 d (by rw [← hc]; exact hc1)
                  (by rw [← hv]; exact hv1)]
              exact ⟨rfl, by rw [applyFail_events, applyFail_events]⟩
            · rw [walk_cons_pass ps f e1 r1 d hc1 hv1,
                walk_cons_pass ps f e2 r2 d (by rw [← hc]; exact hc1)
                  (by rw [← hv]; exact hv1)]
              exact ih r2 (applyPass d f.value) h.2
          · rw [walk_cons_skip ps f e1 r1 d hc1,
              walk_cons_skip ps f e2 r2 d (by rw [← hc]; exact hc1)]
            exact ih r2 d h.2

theorem evaluateField_indep (env : Env) (ps : Params)
    (formAttr : String → Option String) (reg : Registry) (field : FieldSpec)
    (deco : Deco) (m1 m2 : Messages) :
    (evaluateField env ps formAttr reg field m1 deco).passed =
      (evaluateField env ps formAttr reg field m2 deco).passed ∧
    (evaluateField env ps formAttr reg field m1 deco).error =
      (evaluateField env ps formAttr reg field m2 deco).error := by
  have hsnd := bce_snd_msgs_indep formAttr field reg m1 m2
  rcases h1 : buildCustomEntries formAttr field reg m1 with ⟨x1, r1⟩
  rcases h2 : buildCustomEntries formAttr field reg m2 with ⟨x2, r2⟩
  rw [h1, h2] at hsnd
  have hr12 : r1 = r2 := hsnd
  subst hr12
  cases r1 with
  | error e =>
      rw [evaluateField_err env ps formAttr reg field m1 deco x1 e h1,
        evaluateField_err env ps formAttr reg field m2 deco x2 e h2]
      exact ⟨rfl, rfl⟩
  | ok entries =>
      rw [evaluateField_ok env ps formAttr reg field m1 deco x1 entries h1,
        evaluateField_ok env ps formAttr reg field m2 deco x2 entries h2]
      have hmap : (builtinConfig env m1 field ++ entries).map condvt =
          (builtinConfig env m2 field ++ entries).map condvt := by
        rw [List.map_append, List.map_append,
          builtinConfig_condvt env field m1 m2]
      exact ⟨(walk_condvt_congr ps field _ _ deco hmap).1, rfl⟩

/-! ## Error propagation lemmas -/

theorem evaluateField_error_none_of_all (env : Env) (ps : Params)
    (formAttr : String → Option String) (reg : Registry) (field : FieldSpec)
    (msgs : Messages) (deco : Deco)
    (hall : reg.all (fun p => truthyStr (formAttr ("data-msg-" ++ p.1))) = true) :
    (evaluateField env ps formAttr reg field msgs deco).error = none := by
  have hok := bce_isOk formAttr field reg msgs
  rw [hall] at hok
  rcases h : buildCustomEntries formAttr field reg msgs with ⟨m1, res⟩
  rw [h] at hok
  cases res with
  | error e => simp [isOkE] at hok
  | ok entries =>
      rw [evaluateField_ok env ps formAttr reg field msgs deco m1 entries h]

theorem vf_noerr (env : Env) (ps : Params) (formAttr : String → Option String)
    (reg : Registry)
    (hall : reg.all (fun p => truthyStr (formAttr ("data-msg-" ++ p.1))) = true) :
    ∀ (fields : List (FieldSpec × Deco)) (msgs : Messages),
    (validateFields env ps formAttr reg fields msgs).2.1 = none := by
  intro fields
  induction fields with
  | nil => intro msgs; rfl
  | cons fd rest ih =>
      intro msgs
      obtain ⟨f, d⟩ := fd
      have herr := evaluateField_error_none_of_all env ps formAttr reg f msgs d hall
      rcases Bool.eq_false_or_eq_true
          (evaluateField env ps formAttr reg f msgs d).passed with hp | hp
      · rw [vf_cons_pass env ps formAttr reg f d rest msgs herr hp]
        exact ih _
      · rw [vf_cons_fail env ps formAttr reg f d rest msgs herr hp]

/-! ## C6 -/

/-- C6 — corrected.  During `validate()` over a non-empty field list, the
missing-message configuration error is raised iff SOME registered custom
rule has a falsy `data-msg-<name>` attribute on the form — regardless of
whether any field carries the `data-validate-<name>` attribute (the
counterexample shows the error firing with no field using the rule,
refuting the claim's "with at least one field trying to use it"); when
raised, it aborts the call before any UI side effect: every field's
decoration is untouched and the form is not submitted. -/
theorem C6_thm (env : Env) (ps : Params) (formAttr : String → Option String)
    (reg : Registry) (msgs : Messages) (fields : List (FieldSpec × Deco))
    (hne : fields ≠ []) :
    ((validate env ps formAttr reg msgs fields).error ≠ none ↔
      ∃ p ∈ reg, truthyStr (formAttr ("data-msg-" ++ p.1)) = false) ∧
    ((validate env ps formAttr reg msgs fields).error ≠ none →
      (validate env ps formAttr reg msgs fields).decos = fields.map Prod.snd ∧
      (validate env ps formAttr reg msgs fields).submitted = false) := by
  rcases Bool.eq_false_or_eq_true
      (reg.all (fun p => truthyStr (formAttr ("data-msg-" ++ p.1)))) with hall | hall
  · -- every registered rule has a truthy message: no error is ever raised
    have hnone : (validate env ps formAttr reg msgs fields).error = none :=
      vf_noerr env ps formAttr reg hall fields msgs
    constructor
    · constructor
      · intro hcontra; exact absurd hnone hcontra
      · rintro ⟨p, hp, hfp⟩
        have hmem := List.all_eq_true.mp hall p hp
        rw [hfp] at hmem
        cases hmem
    · intro hcontra; exact absurd hnone hcontra
  · -- some registered rule has a falsy message: the first field throws
    cases fields with
    | nil => exact absurd rfl hne
    | cons fd rest =>
        obtain ⟨f, d⟩ := fd
        have hok := bce_isOk formAttr f reg msgs
        rw [hall] at hok
        rcases h : buildCustomEntries formAttr f reg msgs with ⟨m1, res⟩
        rw [h] at hok
        cases res with
        | ok entries => simp [isOkE] at hok
        | error e =>
            have heval := evaluateField_err env ps formAttr reg f msgs d m1 e h
            have hvf := vf_cons_err env ps formAttr reg f d rest msgs e
              (by rw [heval])
            have hbad : ∃ p ∈ reg, truthyStr (formAttr ("data-msg-" ++ p.1)) = false := by
              rcases List.all_eq_false.mp hall with ⟨p, hp, hfp⟩
              exact ⟨p, hp, by simpa using hfp⟩
            constructor
            · constructor
              · intro _; exact hbad
              · intro _
                show (validateFields env ps formAttr reg ((f, d) :: rest) msgs).2.1 ≠ none
                rw [hvf]
                simp
            · intro _
              constructor
              · show (validateFields env ps formAttr reg ((f, d) :: rest) msgs).2.2.2 = _
                rw [hvf]
                simp [heval]
              · show ((validateFields env ps formAttr reg ((f, d) :: rest) msgs).2.1.isNone &&
                  (validateFields env ps formAttr reg ((f, d) :: rest) msgs).2.2.1) = false
                rw [hvf]
                rfl

/-- Witness for C6 (amended): rule `foo` registered, no `data-msg-foo`
attribute, a single field that does not use `foo` — the error is raised,
the field's decoration is untouched and the form is not submitted. -/
theorem C6_wit :
    (validate exEnv defaultParams exAttrNone exRegFoo exMsgs [(exPlainField, exDeco)]).error ≠ none ∧
    (validate exEnv defaultParams exAttrNone exRegFoo exMsgs [(exPlainField, exDeco)]).decos = [exDeco] ∧
    (validate exEnv defaultParams exAttrNone exRegFoo exMsgs [(exPlainField, exDeco)]).submitted = false := by
  have h := C6_thm exEnv defaultParams exAttrNone exRegFoo exMsgs
    [(exPlainField, exDeco)] (by simp)
  have herr : (validate exEnv defaultParams exAttrNone exRegFoo exMsgs [(exPlainField, exDeco)]).error ≠ none := by
    refine h.1.mpr ⟨("foo", Checker.func (fun _ _ _ => false)), ?_, rfl⟩
    exact List.mem_cons_self _ _
  have hrest := h.2 herr
  exact ⟨herr, by rw [hrest.1]; rfl, hrest.2⟩

/-- Counterexample for C6 as frozen: the error fires although no field in
the form carries the `data-validate-foo` attribute. -/
theorem C6_cex :
    (validate exEnv defaultParams exAttrNone exRegFoo exMsgs [(exPlainField, exDeco)]).error ≠ none ∧
    (∀ fd ∈ [(exPlainField, exDeco)], attrLookup fd.1.dataValidate "foo" = none) := by
  exact ⟨by decide, by decide⟩

/-! ## Per-field event lemmas -/

theorem evaluateField_pass_events (env : Env) (ps : Params)
    (formAttr : String → Option String) (reg : Registry) (f : FieldSpec)
    (msgs : Messages) (d : Deco)
    (herr : (evaluateField env ps formAttr reg f msgs d).error = none)
    (hp : (evaluateField env ps formAttr reg f msgs d).passed = true) :
    (evaluateField env ps formAttr reg f msgs d).deco.events = d.events := by
  rcases h : buildCustomEntries formAttr f reg msgs with ⟨m1, res⟩
  cases res with
  | error e =>
      rw [evaluateField_err env ps formAttr reg f msgs d m1 e h] at herr
      simp at herr
  | ok entries =>
      rw [evaluateField_ok env ps formAttr reg f msgs d m1 entries h] at hp ⊢
      exact walk_pass_events ps f _ d hp

theorem evaluateField_fail_events (env : Env) (ps : Params)
    (formAttr : String → Option String) (reg : Registry) (f : FieldSpec)
    (msgs : Messages) (d : Deco)
    (herr : (evaluateField env ps formAttr reg f msgs d).error = none)
    (hp : (evaluateField env ps formAttr reg f msgs d).passed = false) :
    (evaluateField env ps formAttr reg f msgs d).deco.events =
      d.events ++ ["validate-light:error"] := by
  rcases h : buildCustomEntries formAttr f reg msgs with ⟨m1, res⟩
  cases res with
  | error e =>
      rw [evaluateField_err env ps formAttr reg f msgs d m1 e h] at herr
      simp at herr
  | ok entries =>
      rw [evaluateField_ok env ps formAttr reg f msgs d m1 entries h] at hp ⊢
      rcases hfind : (builtinConfig env msgs f ++ entries).find? cFail with _ | e0
      · have hgood := (walk_pass_iff ps f (builtinConfig env msgs f ++ entries) d).mpr hfind
        have hp' : (walkConfig ps f (builtinConfig env msgs f ++ entries) d).1 = false := hp
        rw [hgood] at hp'
        simp at hp' 
      · obtain ⟨d1, hw, hev, _⟩ := walk_fail ps f _ d e0 hfind
        show (walkConfig ps f (builtinConfig env msgs f ++ entries) d).2.events = _
        rw [hw, applyFail_events, hev]

/-! ## Short-circuit characterization of the field loop -/

theorem vf_char (env : Env) (ps : Params) (formAttr : String → Option String)
    (reg : Registry) (msgs : Messages) :
    ∀ (fields : List (FieldSpec × Deco)) (msgs' : Messages),
    (validateFields env ps formAttr reg fields msgs').2.1 = none →
    (((validateFields env ps formAttr reg fields msgs').2.2.1 = true ↔
       ∀ fd ∈ fields,
         (evaluateField env ps formAttr reg fd.1 msgs fd.2).passed = true) ∧
     (∀ (pre : List (FieldSpec × Deco)) (x : FieldSpec × Deco)
        (post : List (FieldSpec × Deco)),
       fields = pre ++ x :: post →
       (∀ fd ∈ pre,
         (evaluateField env ps formAttr reg fd.1 msgs fd.2).passed = true) →
       (evaluateField env ps formAttr reg x.1 msgs x.2).passed = false →
       ∃ (preDecos : List Deco) (xDeco : Deco),
         (validateFields env ps formAttr reg fields msgs').2.2.2 =
           preDecos ++ xDeco :: post.map Prod.snd ∧
         List.Forall₂ (fun dp (fd : FieldSpec × Deco) => dp.events = fd.2.events)
           preDecos pre ∧
         xDeco.events = x.2.events ++ ["validate-light:error"] ∧
         (validateFields env ps formAttr reg fields msgs').2.2.1 = false)) := by
  intro fields
  induction fields with
  | nil =>
      intro msgs' _
      constructor
      · simp [validateFields]
      · intro pre x post habs _ _
        exact absurd habs (by cases pre <;> simp)
  | cons fd rest ih =>
      intro msgs' herr
      obtain ⟨f, d⟩ := fd
      have hind := evaluateField_indep env ps formAttr reg f d msgs' msgs
      rcases hfe : (evaluateField env ps formAttr reg f msgs' d).error with _ | e
      case cons.mk.none =>
        rcases Bool.eq_false_or_eq_true
            (evaluateField env ps formAttr reg f msgs' d).passed with hp | hp
        · -- head passes
          have hp0 : (evaluateField env ps formAttr reg f msgs d).passed = true := by
            rw [← hind.1]; exact hp
          have herr1 : (validateFields env ps formAttr reg rest
              (evaluateField env ps formAttr reg f msgs' d).msgs).2.1 = none := by
            have htmp := herr
            rw [vf_cons_pass env ps formAttr reg f d rest msgs' hfe hp] at htmp
            exact htmp
          have hih := ih (evaluateField env ps formAttr reg f msgs' d).msgs herr1
          have hres : (validateFields env ps formAttr reg ((f, d) :: rest) msgs').2.2.1 =
              (validateFields env ps formAttr reg rest
                (evaluateField env ps formAttr reg f msgs' d).msgs).2.2.1 := by
            rw [vf_cons_pass env ps formAttr reg f d rest msgs' hfe hp]
          have hdecos : (validateFields env ps formAttr reg ((f, d) :: rest) msgs').2.2.2 =
              (evaluateField env ps formAttr reg f msgs' d).deco ::
                (validateFields env ps formAttr reg rest
                  (evaluateField env ps formAttr reg f msgs' d).msgs).2.2.2 := by
            rw [vf_cons_pass env ps formAttr reg f d rest msgs' hfe hp]
          constructor
          · rw [hres, hih.1]
            constructor
            · intro hall fd hfd
              rcases List.mem_cons.mp hfd with rfl | hfd1
              · exact hp0
              · exact hall fd hfd1
            · intro hall fd hfd
              exact hall fd (List.mem_cons_of_mem _ hfd)
          · intro pre x post heq hpre hx
            cases pre with
            | nil =>
                simp only [List.nil_append] at heq
                have hx1 : x = (f, d) := by
                  injection heq with h1 _
                  exact h1.symm
                rw [hx1] at hx
                rw [hp0] at hx
                cases hx
            | cons p0 pre1 =>
                simp only [List.cons_append] at heq
                injection heq with h1 h2
                subst h1
                have hpre1 : ∀ fd ∈ pre1,
                    (evaluateField env ps formAttr reg fd.1 msgs fd.2).passed = true :=
                  fun fd hfd => hpre fd (List.mem_cons_of_mem _ hfd)
                obtain ⟨preDecos1, xDeco, hd1, hd2, hd3, hd4⟩ :=
                  hih.2 pre1 x post h2 hpre1 hx
                refine ⟨(evaluateField env ps formAttr reg f msgs' d).deco :: preDecos1,
                  xDeco, ?_, ?_, hd3, ?_⟩
                · rw [hdecos, hd1]
                  rfl
                · exact List.Forall₂.cons
                    (evaluateField_pass_events env ps formAttr reg f msgs' d hfe hp)
                    hd2
                · rw [hres]
                  exact hd4
        · -- head fails: short-circuit
          have hp0 : (evaluateField env ps formAttr reg f msgs d).passed = false := by
            rw [← hind.1]; exact hp
          have hres : (validateFields env ps formAttr reg ((f, d) :: rest) msgs').2.2.1 = false := by
            rw [vf_cons_fail env ps formAttr reg f d rest msgs' hfe hp]
          have hdecos : (validateFields env ps formAttr reg ((f, d) :: rest) msgs').2.2.2 =
              (evaluateField env ps formAttr reg f msgs' d).deco :: rest.map Prod.snd := by
            rw [vf_cons_fail env ps formAttr reg f d rest msgs' hfe hp]
          constructor
          · rw [hres]
            constructor
            · intro hcontra
              exact absurd hcontra (by simp)
            · intro hall
              have hcontra := hall (f, d) (List.mem_cons_self _ _)
              rw [hp0] at hcontra
              cases hcontra
          · intro pre x post heq hpre hx
            cases pre with
            | nil =>
                simp only [List.nil_append] at heq
                injection heq with h1 h2
                refine ⟨[], (evaluateField env ps formAttr reg f msgs' d).deco,
                  ?_, List.Forall₂.nil, ?_, hres⟩
                · rw [hdecos, ← h2]
                  rfl
                · rw [evaluateField_fail_events env ps formAttr reg f msgs' d hfe hp,
                    ← h1]
            | cons p0 pre1 =>
                simp only [List.cons_append] at heq
                injection heq with h1 h2
                subst h1
                have hcontra := hpre (f, d) (List.mem_cons_self _ _)
                rw [hp0] at hcontra
                cases hcontra
      case cons.mk.some =>
        rw [vf_cons_err env ps formAttr reg f d rest msgs' e hfe] at herr
        simp at herr

/-! ## C2 -/

/-- C2 — confirmed.  `validate()` iterates the form's fields in DOM
order and, when the run raises no configuration error: the form is
submitted iff every field passes; and whenever the field list decomposes
as `pre ++ x :: post` with every field of `pre` passing and `x` failing
(`x` is the first failing field), the run's decoration list decomposes
accordingly: the fields of `pre` receive NO new event (their resulting
decorations carry exactly their previous event lists), `x` alone gets
the fresh failure report (exactly one `validate-light:error` event
appended), every field after `x` keeps its prior decoration untouched
(iteration stopped there), and the form is not submitted. -/
theorem C2_thm (env : Env) (ps : Params) (formAttr : String → Option String)
    (reg : Registry) (msgs : Messages) (fields : List (FieldSpec × Deco))
    (herr : (validate env ps formAttr reg msgs fields).error = none) :
    ((validate env ps formAttr reg msgs fields).submitted = true ↔
      ∀ fd ∈ fields,
        (evaluateField env ps formAttr reg fd.1 msgs fd.2).passed = true) ∧
    (∀ (pre : List (FieldSpec × Deco)) (x : FieldSpec × Deco)
       (post : List (FieldSpec × Deco)),
      fields = pre ++ x :: post →
      (∀ fd ∈ pre,
        (evaluateField env ps formAttr reg fd.1 msgs fd.2).passed = true) →
      (evaluateField env ps formAttr reg x.1 msgs x.2).passed = false →
      ∃ (preDecos : List Deco) (xDeco : Deco),
        (validate env ps formAttr reg msgs fields).decos =
          preDecos ++ xDeco :: post.map Prod.snd ∧
        List.Forall₂ (fun dp (fd : FieldSpec × Deco) => dp.events = fd.2.events)
          preDecos pre ∧
        xDeco.events = x.2.events ++ ["validate-light:error"] ∧
        (validate env ps formAttr reg msgs fields).submitted = false) := by
  have herr1 : (validateFields env ps formAttr reg fields msgs).2.1 = none := herr
  have hch := vf_char env ps formAttr reg msgs fields msgs herr1
  have hsub : (validate env ps formAttr reg msgs fields).submitted =
      (validateFields env ps formAttr reg fields msgs).2.2.1 := by
    show ((validateFields env ps formAttr reg fields msgs).2.1.isNone &&
      (validateFields env ps formAttr reg fields msgs).2.2.1) = _
    rw [herr1]
    simp
  constructor
  · rw [hsub]
    exact hch.1
  · intro pre x post heq hpre hx
    obtain ⟨preDecos, xDeco, h1, h2, h3, h4⟩ := hch.2 pre x post heq hpre hx
    exact ⟨preDecos, xDeco, h1, h2, h3, by rw [hsub]; exact h4⟩

/-- Witness for C2: two required blank fields [A, B] — only A receives a
fresh failure report (one failure event), B's decoration is untouched,
and the form is not submitted. -/
theorem C2_wit :
    (validate exEnv defaultParams exAttrNone [] exMsgs
      [(exReqField, exDeco), (exReqField, exDeco)]).submitted = false ∧
    ∃ xDeco : Deco,
      (validate exEnv defaultParams exAttrNone [] exMsgs
        [(exReqField, exDeco), (exReqField, exDeco)]).decos = [xDeco, exDeco] ∧
      xDeco.events = ["validate-light:error"] := by
  have h := C2_thm exEnv defaultParams exAttrNone [] exMsgs
    [(exReqField, exDeco), (exReqField, exDeco)] rfl
  obtain ⟨preDecos, xDeco, h1, h2, h3, h4⟩ := h.2 [] (exReqField, exDeco)
    [(exReqField, exDeco)] rfl (by intro fd hfd; simp at hfd) (by decide)
  cases h2
  exact ⟨h4, xDeco, by rw [h1]; rfl, by rw [h3]; rfl⟩

/-! ## C5 -/

/-- C5 — corrected.  The field set IS recomputed freshly from the DOM on
every `validate()` call in the v0.1.0 source (`form.fields =
form.querySelectorAll(...)` inside `validate`, src/index.js line 115; the
v1.0.0 prototype version does the same with `self.formFields = ...`), so
`validateV010` acts on the fields present NOW; but the compiled v0.1.1
build runs `var fields = form.querySelectorAll(...)` once inside
`builder` and `validate` closes over that list, so `validateV011` acts on
the fields captured at initialization — and the generations are therefore
NOT functionally equivalent: there are histories (a field added to the
DOM after initialization) on which the two reach opposite submission
verdicts. -/
theorem C5_thm :
    (∀ (env : Env) (ps : Params) (formAttr : String → Option String)
       (reg : Registry) (msgs : Messages)
       (fieldsAtInit fieldsNow : List (FieldSpec × Deco)),
      validateV010 env ps formAttr reg msgs fieldsAtInit fieldsNow =
        validate env ps formAttr reg msgs fieldsNow) ∧
    (∀ (env : Env) (ps : Params) (formAttr : String → Option String)
       (reg : Registry) (msgs : Messages)
       (fieldsAtInit fieldsNow : List (FieldSpec × Deco)),
      validateV011 env ps formAttr reg msgs fieldsAtInit fieldsNow =
        validate env ps formAttr reg msgs fieldsAtInit) ∧
    (∃ (env : Env) (ps : Params) (formAttr : String → Option String)
       (reg : Registry) (msgs : Messages)
       (fieldsAtInit fieldsNow : List (FieldSpec × Deco)),
      (validateV010 env ps formAttr reg msgs fieldsAtInit fieldsNow).submitted ≠
        (validateV011 env ps formAttr reg msgs fieldsAtInit fieldsNow).submitted) := by
  refine ⟨fun _ _ _ _ _ _ _ => rfl, fun _ _ _ _ _ _ _ => rfl, ?_⟩
  exact ⟨exEnv, defaultParams, exAttrNone, [], exMsgs, [], [(exReqField, exDeco)],
    by decide⟩

/-- Counterexample for C5 as frozen: a form initialized with no fields
that later gains a required blank field — the v0.1.0 `validate` (fresh
query) rejects submission, while the v0.1.1 `validate` (list cached at
builder time) validates the stale empty list and submits. -/
theorem C5_cex :
    (validateV010 exEnv defaultParams exAttrNone [] exMsgs [] [(exReqField, exDeco)]).submitted = false ∧
    (validateV011 exEnv defaultParams exAttrNone [] exMsgs [] [(exReqField, exDeco)]).submitted = true := by
  exact ⟨by decide, rfl⟩

end ValidateLight
